import Mathlib

/-!
Shallow embedding of the rocBLAS gbmv banded matrix-vector kernels
(`library/src/blas2/rocblas_gbmv_kernels.cpp`) and of the asum entry point,
together with proofs of the specification claims about them.

Scalars are modelled by an arbitrary commutative ring `T` with decidable
equality; complex conjugation is modelled by an explicit function `cj : T → T`
(the code's `conj`).  Matrix and vector storage is modelled by total functions
`ℤ → T` from flat indices to values, so that "which cells are read" can be
expressed extensionally.  GPU-side loops are counted loops, rendered as sums
over `Finset.range` of the exact iteration count.
-/

/-- Transpose operation selector, mirroring `rocblas_operation`. -/
inductive rocblas_operation where
  | rocblas_operation_none
  | rocblas_operation_transpose
  | rocblas_operation_conjugate_transpose
deriving DecidableEq

open rocblas_operation

/-- Pointer mode of the handle, mirroring `rocblas_pointer_mode`. -/
inductive rocblas_pointer_mode where
  | host
  | device
deriving DecidableEq

/-- Status codes, mirroring the members of `rocblas_status` used here. -/
inductive rocblas_status where
  | success
  | invalid_handle
  | invalid_pointer
  | invalid_size
  | memory_error
  | size_unchanged
  | size_increased
  | check_numerics_fail
  | status_continue
deriving DecidableEq

/-- Iteration count of the counted loop `for(v = start; v < bound; v += step)`. -/
def loopCount (start step bound : ℕ) : ℕ := (bound - start + step - 1) / step

/-- The banded storage row computed in the kernels: `row = ind + (ku - col)`
(computed in `ℤ` since it can be negative). -/
def banded_row (ind ku col : ℕ) : ℤ := (ind : ℤ) + ((ku : ℤ) - (col : ℤ))

variable {T : Type} [CommRing T] [DecidableEq T]

/-- Body of the loop in `rocblas_gbmvn_kernel_helper` (non-transpose case),
for loop variable `col`.  Direct translation of lines 48-67 of
`rocblas_gbmv_kernels.cpp`; the two inner `if`s both add into `res_A`. -/
def gbmvn_body (ind m kl ku : ℕ) (A : ℤ → T) (lda : ℤ) (x : ℤ → T) (incx : ℤ)
    (col : ℕ) : T :=
  if ind < m then
    if banded_row ind ku col ≤ (kl : ℤ) + (ku : ℤ) ∧ 0 ≤ banded_row ind ku col then
      (if banded_row ind ku col ≤ (ku : ℤ) ∧ (ku : ℤ) - banded_row ind ku col ≤ (col : ℤ)
          ∧ (col : ℤ) < (ku : ℤ) - banded_row ind ku col + (m : ℤ) then
        A (banded_row ind ku col + (col : ℤ) * lda) * x ((col : ℤ) * incx)
      else 0)
      +
      (if (ku : ℤ) < banded_row ind ku col
          ∧ (col : ℤ) < (m : ℤ) - (banded_row ind ku col - (ku : ℤ)) then
        A (banded_row ind ku col + (col : ℤ) * lda) * x ((col : ℤ) * incx)
      else 0)
    else 0
  else 0

/-- `rocblas_gbmvn_kernel_helper`: partial sum over the columns
`col = ty, ty + DIM_Y, ...` with `col < n`. -/
def rocblas_gbmvn_kernel_helper (DIM_Y ty ind m n kl ku : ℕ) (A : ℤ → T)
    (lda : ℤ) (x : ℤ → T) (incx : ℤ) : T :=
  ∑ k ∈ Finset.range (loopCount ty DIM_Y n),
    gbmvn_body ind m kl ku A lda x incx (ty + k * DIM_Y)

/-- Body of the loop in `rocblas_gbmvt_kernel_helper` ((conjugate-)transpose
case), for loop variable `row`; the kernel's `col` is `ind`.  Direct
translation of lines 95-118 of `rocblas_gbmv_kernels.cpp` (there the two
branches are chained with `else if`). -/
def gbmvt_body (is_conj : Bool) (cj : T → T) (ind m n kl ku : ℕ) (A : ℤ → T)
    (lda : ℤ) (x : ℤ → T) (incx : ℤ) (row : ℕ) : T :=
  if ind < n then
    if (row : ℤ) ≤ (kl : ℤ) + (ku : ℤ) ∧ (0 : ℤ) ≤ (row : ℤ) then
      if (row : ℤ) ≤ (ku : ℤ) ∧ (ku : ℤ) - (row : ℤ) ≤ (ind : ℤ)
          ∧ (ind : ℤ) < (ku : ℤ) - (row : ℤ) + (m : ℤ) then
        (if is_conj then cj (A ((row : ℤ) + (ind : ℤ) * lda))
          else A ((row : ℤ) + (ind : ℤ) * lda))
          * x (((row : ℤ) - (ku : ℤ) + (ind : ℤ)) * incx)
      else if ((ku : ℤ) < (row : ℤ) ∧ (row : ℤ) ≤ (kl : ℤ) + (ku : ℤ))
          ∧ (ind : ℤ) < (m : ℤ) - ((row : ℤ) - (ku : ℤ)) then
        (if is_conj then cj (A ((row : ℤ) + (ind : ℤ) * lda))
          else A ((row : ℤ) + (ind : ℤ) * lda))
          * x (((row : ℤ) - (ku : ℤ) + (ind : ℤ)) * incx)
      else 0
    else 0
  else 0

/-- `rocblas_gbmvt_kernel_helper`: partial sum over the storage rows
`row = ty, ty + DIM_Y, ...` with `row < lda`. -/
def rocblas_gbmvt_kernel_helper (DIM_Y : ℕ) (is_conj : Bool) (cj : T → T)
    (ty ind m n kl ku : ℕ) (A : ℤ → T) (lda : ℤ) (x : ℤ → T) (incx : ℤ) : T :=
  ∑ k ∈ Finset.range (loopCount ty DIM_Y lda.toNat),
    gbmvt_body is_conj cj ind m n kl ku A lda x incx (ty + k * DIM_Y)

/-- The value accumulated for output index `ind` by the shared-memory
reduction in `rocblas_gbmvx_kernel_calc`: the sum over `ty < DIM_Y` of the
per-thread helper partial sums (lines 160-183). -/
def gbmv_tile_sum (DIM_Y : ℕ) (cj : T → T) (transA : rocblas_operation)
    (ind m n kl ku : ℕ) (A : ℤ → T) (lda : ℤ) (x : ℤ → T) (incx : ℤ) : T :=
  ∑ ty ∈ Finset.range DIM_Y,
    (if transA = rocblas_operation_none then
      rocblas_gbmvn_kernel_helper DIM_Y ty ind m n kl ku A lda x incx
    else
      rocblas_gbmvt_kernel_helper DIM_Y
        (transA = rocblas_operation_conjugate_transpose) cj ty ind m n kl ku
        A lda x incx)

/-- `rocblas_gbmvx_kernel_calc`: the value stored at `y[ind * incy]` after the
kernel body runs, as a function of the output traversal index `ind`
(lines 177-192: the write happens only for `ind` below the logical output
length; other cells keep their previous value). -/
def rocblas_gbmvx_kernel_calc (DIM_Y : ℕ) (cj : T → T)
    (transA : rocblas_operation) (m n kl ku : ℕ) (alpha : T) (A : ℤ → T)
    (lda : ℤ) (x : ℤ → T) (incx : ℤ) (beta : T) (y : ℤ → T) (incy : ℤ)
    (ind : ℕ) : T :=
  if ind < (if transA = rocblas_operation_none then m else n) then
    if beta ≠ 0 then
      if alpha ≠ 0 then
        alpha * gbmv_tile_sum DIM_Y cj transA ind m n kl ku A lda x incx
          + beta * y ((ind : ℤ) * incy)
      else beta * y ((ind : ℤ) * incy)
    else
      if alpha ≠ 0 then
        alpha * gbmv_tile_sum DIM_Y cj transA ind m n kl ku A lda x incx
      else 0
  else y ((ind : ℤ) * incy)

/-- `rocblas_gbmvx_kernel`: the device kernel entry (lines 240-258).
`numThreads` is `blockDim.x * blockDim.y * blockDim.z`; the kernel is a silent
no-op when it differs from `DIM_X * DIM_Y`, and returns right after loading
the scalars when `alpha == 0 && beta == 1`. -/
def rocblas_gbmvx_kernel (DIM_X DIM_Y numThreads : ℕ) (cj : T → T)
    (transA : rocblas_operation) (m n kl ku : ℕ) (alpha : T) (A : ℤ → T)
    (lda : ℤ) (x : ℤ → T) (incx : ℤ) (beta : T) (y : ℤ → T) (incy : ℤ)
    (ind : ℕ) : T :=
  if numThreads ≠ DIM_X * DIM_Y then y ((ind : ℤ) * incy)
  else if alpha = 0 ∧ beta = 1 then y ((ind : ℤ) * incy)
  else rocblas_gbmvx_kernel_calc DIM_Y cj transA m n kl ku alpha A lda x incx
    beta y incy ind

/-- Observable outcome of `rocblas_internal_gbmv_launcher`: returned status,
whether a kernel launch was issued, and the effective base offsets passed to
the kernel for `x` and `y`. -/
structure GbmvLaunch where
  status : rocblas_status
  kernel_launched : Bool
  shiftx : ℤ
  shifty : ℤ
deriving DecidableEq

/-- `rocblas_internal_gbmv_launcher` (lines 286-368): quick return on
`!m || !n || !batch_count`, negative-increment base shifting, and the
host-pointer-mode `alpha == 0 && beta == 1` skip.  In device pointer mode the
host-side scalar values are not read and the kernel is always launched. -/
def rocblas_internal_gbmv_launcher (pointer_mode : rocblas_pointer_mode)
    (transA : rocblas_operation) (m n kl ku : ℤ) (alpha : T)
    (offsetx incx : ℤ) (beta : T) (offsety incy : ℤ)
    (batch_count : ℤ) : GbmvLaunch :=
  if m = 0 ∨ n = 0 ∨ batch_count = 0 then
    { status := .success, kernel_launched := false,
      shiftx := offsetx, shifty := offsety }
  else
    let shiftx := if incx < 0 then
        offsetx - incx * (if transA = rocblas_operation_none then n - 1 else m - 1)
      else offsetx
    let shifty := if incy < 0 then
        offsety - incy * (if transA = rocblas_operation_none then m - 1 else n - 1)
      else offsety
    if pointer_mode = rocblas_pointer_mode.device then
      { status := .success, kernel_launched := true,
        shiftx := shiftx, shifty := shifty }
    else if alpha = 0 ∧ beta = 1 then
      { status := .success, kernel_launched := false,
        shiftx := shiftx, shifty := shifty }
    else
      { status := .success, kernel_launched := true,
        shiftx := shiftx, shifty := shifty }

/-- Logical entry `(i, j)` of the banded matrix reconstructed from its
compacted storage, following the storage description in the source's
docstring (lines 199-217): the main diagonal sits on storage row `ku` and
entry `(i, j)` of the logical matrix sits on storage row `ku + i - j`,
column `j`; entries outside the band are implicit zeros. -/
def bandMatrixEntry (kl ku : ℕ) (A : ℤ → T) (lda : ℤ) (i j : ℤ) : T :=
  if i - (kl : ℤ) ≤ j ∧ j ≤ i + (ku : ℤ) then A (((ku : ℤ) + i - j) + j * lda)
  else 0

/-- Reference semantics of gbmv, written from the specification's words:
`y[i] = alpha * (op(A) * x)[i] + beta * y[i]`, where `op` is the identity,
the transpose, or the conjugate transpose, and the logical vector element
`x[j]` lives at `x[j * incx]` (`y` likewise at stride `incy`). -/
def gbmv_reference (cj : T → T) (transA : rocblas_operation) (m n kl ku : ℕ)
    (alpha : T) (A : ℤ → T) (lda : ℤ) (x : ℤ → T) (incx : ℤ) (beta : T)
    (y : ℤ → T) (incy : ℤ) (i : ℕ) : T :=
  match transA with
  | rocblas_operation_none =>
      alpha * (∑ j ∈ Finset.range n,
          bandMatrixEntry kl ku A lda (i : ℤ) (j : ℤ) * x ((j : ℤ) * incx))
        + beta * y ((i : ℤ) * incy)
  | rocblas_operation_transpose =>
      alpha * (∑ j ∈ Finset.range m,
          bandMatrixEntry kl ku A lda (j : ℤ) (i : ℤ) * x ((j : ℤ) * incx))
        + beta * y ((i : ℤ) * incy)
  | rocblas_operation_conjugate_transpose =>
      alpha * (∑ j ∈ Finset.range m,
          cj (bandMatrixEntry kl ku A lda (j : ℤ) (i : ℤ)) * x ((j : ℤ) * incx))
        + beta * y ((i : ℤ) * incy)

/-! ### Loop arithmetic -/

lemma lt_loopCount_iff {D : ℕ} (hD : 0 < D) (s b k : ℕ) :
    k < loopCount s D b ↔ s + k * D < b := by
  unfold loopCount
  rw [Nat.lt_iff_add_one_le, Nat.le_div_iff_mul_le hD]
  have h : (k + 1) * D = k * D + D := by ring
  rw [h]
  generalize k * D = p
  omega

/-- The strided loops for `ty = 0, ..., D-1` together cover `0, ..., n-1`
exactly once: summing the per-`ty` partial sums gives the full sum. -/
lemma strided_sum_eq {M : Type} [AddCommMonoid M] {D : ℕ} (hD : 0 < D)
    (n : ℕ) (f : ℕ → M) :
    ∑ ty ∈ Finset.range D, ∑ k ∈ Finset.range (loopCount ty D n),
        f (ty + k * D)
      = ∑ col ∈ Finset.range n, f col := by
  rw [← Finset.sum_fiberwise_of_maps_to
    (g := fun col => col % D) (t := Finset.range D)
    (fun col _ => Finset.mem_range.mpr (Nat.mod_lt _ hD)) f]
  apply Finset.sum_congr rfl
  intro ty hty
  rw [Finset.mem_range] at hty
  refine Finset.sum_nbij' (fun k => ty + k * D) (fun col => col / D)
    ?_ ?_ ?_ ?_ ?_
  · intro k hk
    rw [Finset.mem_range] at hk
    rw [Finset.mem_filter, Finset.mem_range]
    refine ⟨(lt_loopCount_iff hD ty n k).mp hk, ?_⟩
    rw [Nat.add_mul_mod_self_right, Nat.mod_eq_of_lt hty]
  · intro col hcol
    rw [Finset.mem_filter, Finset.mem_range] at hcol
    rw [Finset.mem_range, lt_loopCount_iff hD]
    have hc : ty + col / D * D = col := by
      rw [← hcol.2]; exact Nat.mod_add_div' col D
    rw [hc]; exact hcol.1
  · intro k hk
    show (ty + k * D) / D = k
    rw [Nat.add_mul_div_right _ _ hD, Nat.div_eq_of_lt hty, Nat.zero_add]
  · intro col hcol
    rw [Finset.mem_filter, Finset.mem_range] at hcol
    rw [← hcol.2]; exact Nat.mod_add_div' col D
  · intro k _; rfl

/-! ### Pointwise characterisation of the loop bodies -/

/-- For a valid output row `ind < m`, one iteration of the non-transpose loop
contributes exactly the logical band-matrix entry times the vector element. -/
lemma gbmvn_body_eq (ind m kl ku : ℕ) (A : ℤ → T) (lda : ℤ) (x : ℤ → T)
    (incx : ℤ) (col : ℕ) (hind : ind < m) :
    gbmvn_body ind m kl ku A lda x incx col
      = bandMatrixEntry kl ku A lda (ind : ℤ) (col : ℤ) * x ((col : ℤ) * incx) := by
  unfold gbmvn_body bandMatrixEntry banded_row
  have he : ((ind : ℤ) + ((ku : ℤ) - (col : ℤ))) + (col : ℤ) * lda
      = ((ku : ℤ) + (ind : ℤ) - (col : ℤ)) + (col : ℤ) * lda := by ring
  rw [he, if_pos hind]
  split_ifs <;> first | ring1 | (exfalso; omega)

/-- Reindexing a sum of guarded terms along the shift `r ↦ r + a`. -/
lemma indicator_shift_sum {M : Type} [AddCommMonoid M] (W : ℤ → M)
    (K m : ℕ) (a : ℤ) :
    ∑ r ∈ Finset.range (K + 1),
        (if 0 ≤ (r : ℤ) + a ∧ (r : ℤ) + a < (m : ℤ) then W ((r : ℤ) + a) else 0)
      = ∑ j ∈ Finset.range m,
        (if a ≤ (j : ℤ) ∧ (j : ℤ) ≤ a + (K : ℤ) then W (j : ℤ) else 0) := by
  rw [← Finset.sum_filter, ← Finset.sum_filter]
  refine Finset.sum_nbij' (fun r => ((r : ℤ) + a).toNat)
    (fun j => ((j : ℤ) - a).toNat) ?_ ?_ ?_ ?_ ?_
  · intro r hr
    simp only [Finset.mem_filter, Finset.mem_range] at *
    omega
  · intro j hj
    simp only [Finset.mem_filter, Finset.mem_range] at *
    omega
  · intro r hr
    simp only [Finset.mem_filter, Finset.mem_range] at hr
    simp only []
    omega
  · intro j hj
    simp only [Finset.mem_filter, Finset.mem_range] at hj
    simp only []
    omega
  · intro r hr
    simp only [Finset.mem_filter, Finset.mem_range] at hr
    simp only []
    congr 1
    omega

/-- The full (conjugate-)transpose traversal over storage rows equals the
inner product of logical column `ind` of the band matrix with `x`. -/
lemma gbmvt_sum_eq (is_conj : Bool) (cj : T → T) (hcj : cj 0 = 0)
    (ind m n kl ku : ℕ) (A : ℤ → T) (lda : ℤ) (x : ℤ → T) (incx : ℤ)
    (hind : ind < n) (hlda : (kl : ℤ) + (ku : ℤ) < lda) :
    ∑ r ∈ Finset.range lda.toNat,
        gbmvt_body is_conj cj ind m n kl ku A lda x incx r
      = ∑ j ∈ Finset.range m,
        (if is_conj then cj (bandMatrixEntry kl ku A lda (j : ℤ) (ind : ℤ))
          else bandMatrixEntry kl ku A lda (j : ℤ) (ind : ℤ))
          * x ((j : ℤ) * incx) := by
  have hsub : Finset.range (kl + ku + 1) ⊆ Finset.range lda.toNat := by
    intro r hr
    simp only [Finset.mem_range] at *
    omega
  have hvan : ∀ r ∈ Finset.range lda.toNat, r ∉ Finset.range (kl + ku + 1) →
      gbmvt_body is_conj cj ind m n kl ku A lda x incx r = 0 := by
    intro r _ hr
    simp only [Finset.mem_range] at hr
    unfold gbmvt_body
    split_ifs <;> first | rfl | (exfalso; omega)
  have step2a : ∀ r ∈ Finset.range (kl + ku + 1),
      gbmvt_body is_conj cj ind m n kl ku A lda x incx r
        = if 0 ≤ (r : ℤ) + ((ind : ℤ) - (ku : ℤ))
              ∧ (r : ℤ) + ((ind : ℤ) - (ku : ℤ)) < (m : ℤ) then
            (if is_conj then
              cj (A (((ku : ℤ) + ((r : ℤ) + ((ind : ℤ) - (ku : ℤ))) - (ind : ℤ))
                + (ind : ℤ) * lda))
            else A (((ku : ℤ) + ((r : ℤ) + ((ind : ℤ) - (ku : ℤ))) - (ind : ℤ))
                + (ind : ℤ) * lda))
            * x (((r : ℤ) + ((ind : ℤ) - (ku : ℤ))) * incx)
          else 0 := by
    intro r hr
    simp only [Finset.mem_range] at hr
    have e1 : ((ku : ℤ) + ((r : ℤ) + ((ind : ℤ) - (ku : ℤ))) - (ind : ℤ))
        + (ind : ℤ) * lda = (r : ℤ) + (ind : ℤ) * lda := by ring
    have e2 : (r : ℤ) + ((ind : ℤ) - (ku : ℤ))
        = (r : ℤ) - (ku : ℤ) + (ind : ℤ) := by ring
    rw [e1, e2]
    unfold gbmvt_body
    rw [if_pos hind]
    split_ifs <;> first | rfl | (exfalso; omega)
  have step4 : ∀ j ∈ Finset.range m,
      (if ((ind : ℤ) - (ku : ℤ)) ≤ (j : ℤ)
          ∧ (j : ℤ) ≤ ((ind : ℤ) - (ku : ℤ)) + ((kl + ku : ℕ) : ℤ) then
        (if is_conj then
          cj (A (((ku : ℤ) + (j : ℤ) - (ind : ℤ)) + (ind : ℤ) * lda))
        else A (((ku : ℤ) + (j : ℤ) - (ind : ℤ)) + (ind : ℤ) * lda))
        * x ((j : ℤ) * incx)
      else 0)
        = (if is_conj then cj (bandMatrixEntry kl ku A lda (j : ℤ) (ind : ℤ))
            else bandMatrixEntry kl ku A lda (j : ℤ) (ind : ℤ))
            * x ((j : ℤ) * incx) := by
    intro j _
    unfold bandMatrixEntry
    by_cases hband : (j : ℤ) - (kl : ℤ) ≤ (ind : ℤ) ∧ (ind : ℤ) ≤ (j : ℤ) + (ku : ℤ)
    · rw [if_pos hband, if_pos (by push_cast; omega)]
    · rw [if_neg hband, if_neg (by push_cast; omega)]
      cases is_conj <;> simp [hcj]
  calc
    ∑ r ∈ Finset.range lda.toNat,
        gbmvt_body is_conj cj ind m n kl ku A lda x incx r
      = ∑ r ∈ Finset.range (kl + ku + 1),
          gbmvt_body is_conj cj ind m n kl ku A lda x incx r :=
        (Finset.sum_subset hsub hvan).symm
    _ = ∑ r ∈ Finset.range (kl + ku + 1),
          (if 0 ≤ (r : ℤ) + ((ind : ℤ) - (ku : ℤ))
              ∧ (r : ℤ) + ((ind : ℤ) - (ku : ℤ)) < (m : ℤ) then
            (if is_conj then
              cj (A (((ku : ℤ) + ((r : ℤ) + ((ind : ℤ) - (ku : ℤ))) - (ind : ℤ))
                + (ind : ℤ) * lda))
            else A (((ku : ℤ) + ((r : ℤ) + ((ind : ℤ) - (ku : ℤ))) - (ind : ℤ))
                + (ind : ℤ) * lda))
            * x (((r : ℤ) + ((ind : ℤ) - (ku : ℤ))) * incx)
          else 0) := Finset.sum_congr rfl step2a
    _ = ∑ j ∈ Finset.range m,
          (if ((ind : ℤ) - (ku : ℤ)) ≤ (j : ℤ)
              ∧ (j : ℤ) ≤ ((ind : ℤ) - (ku : ℤ)) + ((kl + ku : ℕ) : ℤ) then
            (if is_conj then
              cj (A (((ku : ℤ) + (j : ℤ) - (ind : ℤ)) + (ind : ℤ) * lda))
            else A (((ku : ℤ) + (j : ℤ) - (ind : ℤ)) + (ind : ℤ) * lda))
            * x ((j : ℤ) * incx)
          else 0) :=
        indicator_shift_sum
          (fun z => (if is_conj then
              cj (A (((ku : ℤ) + z - (ind : ℤ)) + (ind : ℤ) * lda))
            else A (((ku : ℤ) + z - (ind : ℤ)) + (ind : ℤ) * lda))
            * x (z * incx))
          (kl + ku) m ((ind : ℤ) - (ku : ℤ))
    _ = ∑ j ∈ Finset.range m,
          (if is_conj then cj (bandMatrixEntry kl ku A lda (j : ℤ) (ind : ℤ))
            else bandMatrixEntry kl ku A lda (j : ℤ) (ind : ℤ))
            * x ((j : ℤ) * incx) := Finset.sum_congr rfl step4

/-! ### Tile sums equal logical inner products -/

lemma gbmv_tile_sum_none {DIM_Y : ℕ} (hD : 0 < DIM_Y) (cj : T → T)
    (ind m n kl ku : ℕ) (A : ℤ → T) (lda : ℤ) (x : ℤ → T) (incx : ℤ)
    (hind : ind < m) :
    gbmv_tile_sum DIM_Y cj rocblas_operation_none ind m n kl ku A lda x incx
      = ∑ j ∈ Finset.range n,
          bandMatrixEntry kl ku A lda (ind : ℤ) (j : ℤ) * x ((j : ℤ) * incx) := by
  unfold gbmv_tile_sum
  simp only [reduceIte]
  unfold rocblas_gbmvn_kernel_helper
  rw [strided_sum_eq hD n (gbmvn_body ind m kl ku A lda x incx)]
  exact Finset.sum_congr rfl
    (fun col _ => gbmvn_body_eq ind m kl ku A lda x incx col hind)

lemma gbmv_tile_sum_trans {DIM_Y : ℕ} (hD : 0 < DIM_Y) (cj : T → T)
    (hcj : cj 0 = 0) (ind m n kl ku : ℕ) (A : ℤ → T) (lda : ℤ) (x : ℤ → T)
    (incx : ℤ) (hind : ind < n) (hlda : (kl : ℤ) + (ku : ℤ) < lda) :
    gbmv_tile_sum DIM_Y cj rocblas_operation_transpose ind m n kl ku A lda x incx
      = ∑ j ∈ Finset.range m,
          bandMatrixEntry kl ku A lda (j : ℤ) (ind : ℤ) * x ((j : ℤ) * incx) := by
  unfold gbmv_tile_sum
  simp only [reduceIte, reduceCtorEq, decide_False]
  unfold rocblas_gbmvt_kernel_helper
  rw [strided_sum_eq hD lda.toNat
    (gbmvt_body false cj ind m n kl ku A lda x incx)]
  rw [gbmvt_sum_eq false cj hcj ind m n kl ku A lda x incx hind hlda]
  simp

lemma gbmv_tile_sum_conj {DIM_Y : ℕ} (hD : 0 < DIM_Y) (cj : T → T)
    (hcj : cj 0 = 0) (ind m n kl ku : ℕ) (A : ℤ → T) (lda : ℤ) (x : ℤ → T)
    (incx : ℤ) (hind : ind < n) (hlda : (kl : ℤ) + (ku : ℤ) < lda) :
    gbmv_tile_sum DIM_Y cj rocblas_operation_conjugate_transpose ind m n kl ku
        A lda x incx
      = ∑ j ∈ Finset.range m,
          cj (bandMatrixEntry kl ku A lda (j : ℤ) (ind : ℤ))
            * x ((j : ℤ) * incx) := by
  unfold gbmv_tile_sum
  simp only [reduceIte, reduceCtorEq, decide_True]
  unfold rocblas_gbmvt_kernel_helper
  rw [strided_sum_eq hD lda.toNat
    (gbmvt_body true cj ind m n kl ku A lda x incx)]
  rw [gbmvt_sum_eq true cj hcj ind m n kl ku A lda x incx hind hlda]
  simp

/-- C1: for every valid banded problem (`0 ≤ kl, ku`, main diagonal on storage
row `ku`, `kl + ku < lda`), matrix `A`, vector `x`, scalars `alpha`, `beta`
and every transpose kind, the gbmv kernel computation stores
`alpha * (op(A) * x)[i] + beta * y[i]` into every output element `i` below the
logical output length (`m` for no-transpose, `n` otherwise), where `op` is the
identity, the transpose, or the conjugate transpose. -/
theorem gbmv_kernel_calc_matches_reference (DIM_Y : ℕ) (cj : T → T)
    (transA : rocblas_operation) (m n kl ku : ℕ) (alpha : T) (A : ℤ → T)
    (lda : ℤ) (x : ℤ → T) (incx : ℤ) (beta : T) (y : ℤ → T) (incy : ℤ)
    (ind : ℕ) (hD : 0 < DIM_Y) (hcj : cj 0 = 0)
    (hlda : (kl : ℤ) + (ku : ℤ) < lda)
    (hind : ind < (if transA = rocblas_operation_none then m else n)) :
    rocblas_gbmvx_kernel_calc DIM_Y cj transA m n kl ku alpha A lda x incx
        beta y incy ind
      = gbmv_reference cj transA m n kl ku alpha A lda x incx beta y incy ind := by
  cases transA with
  | rocblas_operation_none =>
      have hind' : ind < m := by simpa using hind
      have hs := gbmv_tile_sum_none hD cj ind m n kl ku A lda x incx hind'
      simp only [rocblas_gbmvx_kernel_calc, gbmv_reference, reduceIte]
      rw [if_pos hind', hs]
      by_cases hb : beta = 0 <;> by_cases ha : alpha = 0 <;>
        simp [ha, hb]
  | rocblas_operation_transpose =>
      have hind' : ind < n := by simpa using hind
      have hs := gbmv_tile_sum_trans hD cj hcj ind m n kl ku A lda x incx
        hind' hlda
      simp only [rocblas_gbmvx_kernel_calc, gbmv_reference, reduceIte,
        reduceCtorEq]
      rw [if_pos hind', hs]
      by_cases hb : beta = 0 <;> by_cases ha : alpha = 0 <;>
        simp [ha, hb]
  | rocblas_operation_conjugate_transpose =>
      have hind' : ind < n := by simpa using hind
      have hs := gbmv_tile_sum_conj hD cj hcj ind m n kl ku A lda x incx
        hind' hlda
      simp only [rocblas_gbmvx_kernel_calc, gbmv_reference, reduceIte,
        reduceCtorEq]
      rw [if_pos hind', hs]
      by_cases hb : beta = 0 <;> by_cases ha : alpha = 0 <;>
        simp [ha, hb]

/-! ### Claims about the kernel's final accumulate and quick returns -/

/-- C2: when `beta == 0` the kernel stores a pure zero (if `alpha == 0`) or
`alpha * partial` (if `alpha != 0`) into the written output element, and the
stored value does not depend on the prior contents of `y` at all. -/
theorem gbmv_beta_zero_writes_without_reading_y (DIM_Y : ℕ) (cj : T → T)
    (transA : rocblas_operation) (m n kl ku : ℕ) (alpha : T) (A : ℤ → T)
    (lda : ℤ) (x : ℤ → T) (incx : ℤ) (beta : T) (y : ℤ → T) (incy : ℤ)
    (ind : ℕ) (hbeta : beta = 0)
    (hind : ind < (if transA = rocblas_operation_none then m else n)) :
    rocblas_gbmvx_kernel_calc DIM_Y cj transA m n kl ku alpha A lda x incx
        beta y incy ind
      = (if alpha = 0 then 0
          else alpha * gbmv_tile_sum DIM_Y cj transA ind m n kl ku A lda x incx)
    ∧ ∀ y' : ℤ → T,
        rocblas_gbmvx_kernel_calc DIM_Y cj transA m n kl ku alpha A lda x incx
            beta y' incy ind
          = rocblas_gbmvx_kernel_calc DIM_Y cj transA m n kl ku alpha A lda x
            incx beta y incy ind := by
  subst hbeta
  constructor
  · unfold rocblas_gbmvx_kernel_calc
    rw [if_pos hind]
    by_cases ha : alpha = 0 <;> simp [ha]
  · intro y'
    unfold rocblas_gbmvx_kernel_calc
    rw [if_pos hind, if_pos hind]
    simp

/-- C3: with `alpha == 0` and `beta == 1` the operation is a true identity:
the device kernel leaves every element of `y` unchanged (device pointer
mode), and in host pointer mode the launcher returns success without even
launching a kernel. -/
theorem gbmv_alpha_zero_beta_one_identity (DIM_X DIM_Y numThreads : ℕ)
    (cj : T → T) (transA : rocblas_operation) (m n kl ku : ℕ) (alpha : T)
    (A : ℤ → T) (lda : ℤ) (x : ℤ → T) (incx : ℤ) (beta : T) (y : ℤ → T)
    (incy : ℤ) (mz nz klz kuz offsetx incxz offsety incyz batch_count : ℤ)
    (ha : alpha = 0) (hb : beta = 1) :
    (∀ ind : ℕ,
      rocblas_gbmvx_kernel DIM_X DIM_Y numThreads cj transA m n kl ku alpha
          A lda x incx beta y incy ind = y ((ind : ℤ) * incy))
    ∧ (rocblas_internal_gbmv_launcher rocblas_pointer_mode.host transA
          mz nz klz kuz alpha offsetx incxz beta offsety incyz
          batch_count).kernel_launched = false
    ∧ (rocblas_internal_gbmv_launcher rocblas_pointer_mode.host transA
          mz nz klz kuz alpha offsetx incxz beta offsety incyz
          batch_count).status = rocblas_status.success := by
  subst ha hb
  refine ⟨fun ind => ?_, ?_, ?_⟩
  · unfold rocblas_gbmvx_kernel
    split_ifs <;> first | rfl | simp_all
  · unfold rocblas_internal_gbmv_launcher
    split_ifs <;> simp_all
  · unfold rocblas_internal_gbmv_launcher
    split_ifs <;> simp_all

lemma gbmv_launcher_shiftx_eq (pointer_mode : rocblas_pointer_mode)
    (transA : rocblas_operation) (m n kl ku : ℤ) (alpha : T)
    (offsetx incx : ℤ) (beta : T) (offsety incy : ℤ) (batch_count : ℤ)
    (h : ¬(m = 0 ∨ n = 0 ∨ batch_count = 0)) :
    (rocblas_internal_gbmv_launcher pointer_mode transA m n kl ku alpha
        offsetx incx beta offsety incy batch_count).shiftx
      = if incx < 0 then
          offsetx - incx * (if transA = rocblas_operation_none then n - 1 else m - 1)
        else offsetx := by
  unfold rocblas_internal_gbmv_launcher
  rw [if_neg h]
  simp only []
  split_ifs <;> rfl

lemma gbmv_launcher_shifty_eq (pointer_mode : rocblas_pointer_mode)
    (transA : rocblas_operation) (m n kl ku : ℤ) (alpha : T)
    (offsetx incx : ℤ) (beta : T) (offsety incy : ℤ) (batch_count : ℤ)
    (h : ¬(m = 0 ∨ n = 0 ∨ batch_count = 0)) :
    (rocblas_internal_gbmv_launcher pointer_mode transA m n kl ku alpha
        offsetx incx beta offsety incy batch_count).shifty
      = if incy < 0 then
          offsety - incy * (if transA = rocblas_operation_none then m - 1 else n - 1)
        else offsety := by
  unfold rocblas_internal_gbmv_launcher
  rw [if_neg h]
  simp only []
  split_ifs <;> rfl

/-- C4: a negative increment shifts the corresponding effective base offset
forward by `(logical_length - 1) * |increment|`, where the logical length of
`x` is `n` for no-transpose and `m` otherwise, and that of `y` is `m` for
no-transpose and `n` otherwise; non-negative increments leave the offset
unchanged. -/
theorem gbmv_launcher_negative_increment_shift
    (pointer_mode : rocblas_pointer_mode) (transA : rocblas_operation)
    (m n kl ku : ℤ) (alpha : T) (offsetx incx : ℤ) (beta : T)
    (offsety incy : ℤ) (batch_count : ℤ)
    (hm : m ≠ 0) (hn : n ≠ 0) (hb : batch_count ≠ 0) :
    ((incx < 0 →
        (rocblas_internal_gbmv_launcher pointer_mode transA m n kl ku alpha
            offsetx incx beta offsety incy batch_count).shiftx
          = offsetx
            + |incx| * ((if transA = rocblas_operation_none then n else m) - 1))
      ∧ (0 ≤ incx →
        (rocblas_internal_gbmv_launcher pointer_mode transA m n kl ku alpha
            offsetx incx beta offsety incy batch_count).shiftx = offsetx))
    ∧ ((incy < 0 →
        (rocblas_internal_gbmv_launcher pointer_mode transA m n kl ku alpha
            offsetx incx beta offsety incy batch_count).shifty
          = offsety
            + |incy| * ((if transA = rocblas_operation_none then m else n) - 1))
      ∧ (0 ≤ incy →
        (rocblas_internal_gbmv_launcher pointer_mode transA m n kl ku alpha
            offsetx incx beta offsety incy batch_count).shifty = offsety)) := by
  have hguard : ¬(m = 0 ∨ n = 0 ∨ batch_count = 0) := by
    simp [hm, hn, hb]
  have hx := gbmv_launcher_shiftx_eq pointer_mode transA m n kl ku alpha
    offsetx incx beta offsety incy batch_count hguard
  have hy := gbmv_launcher_shifty_eq pointer_mode transA m n kl ku alpha
    offsetx incx beta offsety incy batch_count hguard
  refine ⟨⟨fun hneg => ?_, fun hpos => ?_⟩, fun hneg => ?_, fun hpos => ?_⟩
  · rw [hx, if_pos hneg, abs_of_neg hneg]
    split_ifs <;> ring
  · rw [hx, if_neg (not_lt.mpr hpos)]
  · rw [hy, if_pos hneg, abs_of_neg hneg]
    split_ifs <;> ring
  · rw [hy, if_neg (not_lt.mpr hpos)]

/-- C5 counterexample: with `m = n = 1` and `batch_count = -1` the launcher's
quick-return guard `!m || !n || !batch_count` does not fire, so the kernel is
launched even though `batch_count ≤ 0`, refuting the claim that every call
with `batch_count ≤ 0` returns without launching a kernel. -/
theorem gbmv_launcher_negative_batch_count_launches :
    (rocblas_internal_gbmv_launcher (T := ℤ) rocblas_pointer_mode.device
        rocblas_operation_none 1 1 0 0 0 0 1 0 0 1 (-1)).kernel_launched
      = true := by
  decide

/-- C5 (amended): for every launcher call with `m == 0`, `n == 0` or
`batch_count == 0`, the launcher returns success without launching any
kernel (the quick return tests equality with zero only, so a negative
`batch_count` is not caught by it). -/
theorem gbmv_launcher_quick_return (pointer_mode : rocblas_pointer_mode)
    (transA : rocblas_operation) (m n kl ku : ℤ) (alpha : T)
    (offsetx incx : ℤ) (beta : T) (offsety incy : ℤ) (batch_count : ℤ)
    (h : m = 0 ∨ n = 0 ∨ batch_count = 0) :
    (rocblas_internal_gbmv_launcher pointer_mode transA m n kl ku alpha
        offsetx incx beta offsety incy batch_count).status
      = rocblas_status.success
    ∧ (rocblas_internal_gbmv_launcher pointer_mode transA m n kl ku alpha
        offsetx incx beta offsety incy batch_count).kernel_launched = false := by
  unfold rocblas_internal_gbmv_launcher
  rw [if_pos h]
  exact ⟨rfl, rfl⟩

/-- C9: a kernel launched with a thread-block whose total thread count
differs from `DIM_X * DIM_Y` is a defined silent no-op: every element of `y`
keeps its previous value (the kernel returns no status at all, so no error
can be propagated). -/
theorem gbmv_kernel_thread_mismatch_noop (DIM_X DIM_Y numThreads : ℕ)
    (cj : T → T) (transA : rocblas_operation) (m n kl ku : ℕ) (alpha : T)
    (A : ℤ → T) (lda : ℤ) (x : ℤ → T) (incx : ℤ) (beta : T) (y : ℤ → T)
    (incy : ℤ) (h : numThreads ≠ DIM_X * DIM_Y) :
    ∀ ind : ℕ,
      rocblas_gbmvx_kernel DIM_X DIM_Y numThreads cj transA m n kl ku alpha
          A lda x incx beta y incy ind = y ((ind : ℤ) * incy) := by
  intro ind
  unfold rocblas_gbmvx_kernel
  rw [if_pos h]

/-- C10: when the loaded `alpha` is zero, the kernel's result does not depend
on `A` or `x` at all (they are only resolved and traversed when `alpha` is
nonzero), and `y` is still correctly updated to `beta * y`. -/
theorem gbmv_kernel_alpha_zero_no_deref (DIM_X DIM_Y numThreads : ℕ)
    (cj : T → T) (transA : rocblas_operation) (m n kl ku : ℕ) (alpha : T)
    (A : ℤ → T) (lda : ℤ) (x : ℤ → T) (incx : ℤ) (beta : T) (y : ℤ → T)
    (incy : ℤ) (ha : alpha = 0) (ht : numThreads = DIM_X * DIM_Y) :
    (∀ (A' x' : ℤ → T) (ind : ℕ),
      rocblas_gbmvx_kernel DIM_X DIM_Y numThreads cj transA m n kl ku alpha
          A' lda x' incx beta y incy ind
        = rocblas_gbmvx_kernel DIM_X DIM_Y numThreads cj transA m n kl ku
          alpha A lda x incx beta y incy ind)
    ∧ (∀ ind : ℕ,
      rocblas_gbmvx_kernel DIM_X DIM_Y numThreads cj transA m n kl ku alpha
          A lda x incx beta y incy ind
        = if ind < (if transA = rocblas_operation_none then m else n)
          then beta * y ((ind : ℤ) * incy) else y ((ind : ℤ) * incy)) := by
  subst ha ht
  constructor
  · intro A' x' ind
    unfold rocblas_gbmvx_kernel rocblas_gbmvx_kernel_calc
    split_ifs <;> first | rfl | simp_all
  · intro ind
    unfold rocblas_gbmvx_kernel rocblas_gbmvx_kernel_calc
    split_ifs <;> simp_all

/-- C6: the traversal helpers read a storage cell `A[row + col * lda]` only
when `0 ≤ row ≤ kl + ku` and the column lies in the band bounds for that
storage row (`ku - row ≤ col < ku - row + m` when `row ≤ ku`, and
`col < m - (row - ku)` when `row > ku`): two storage buffers agreeing on that
region yield identical partial sums for both helpers (and, the embedding
being purely functional, neither helper writes to `A`). -/
theorem gbmv_helpers_read_only_in_band (DIM_Y ty ind m n kl ku : ℕ)
    (A1 A2 : ℤ → T) (lda : ℤ) (x : ℤ → T) (incx : ℤ) (is_conj : Bool)
    (cj : T → T)
    (H : ∀ row col : ℤ, 0 ≤ row → row ≤ (kl : ℤ) + (ku : ℤ) →
      ((row ≤ (ku : ℤ) ∧ (ku : ℤ) - row ≤ col ∧ col < (ku : ℤ) - row + (m : ℤ))
        ∨ ((ku : ℤ) < row ∧ col < (m : ℤ) - (row - (ku : ℤ)))) →
      A1 (row + col * lda) = A2 (row + col * lda)) :
    rocblas_gbmvn_kernel_helper DIM_Y ty ind m n kl ku A1 lda x incx
      = rocblas_gbmvn_kernel_helper DIM_Y ty ind m n kl ku A2 lda x incx
    ∧ rocblas_gbmvt_kernel_helper DIM_Y is_conj cj ty ind m n kl ku A1 lda x incx
      = rocblas_gbmvt_kernel_helper DIM_Y is_conj cj ty ind m n kl ku A2 lda
        x incx := by
  constructor
  · unfold rocblas_gbmvn_kernel_helper
    refine Finset.sum_congr rfl fun k _ => ?_
    simp only [gbmvn_body, banded_row]
    split_ifs with hm h1 h2 h3 h3'
    · exfalso; omega
    · have hA := H ((ind : ℤ) + ((ku : ℤ) - ((ty + k * DIM_Y : ℕ) : ℤ)))
        (((ty + k * DIM_Y : ℕ) : ℤ)) (by omega) (by omega) (Or.inl h2)
      rw [hA]
    · have hA := H ((ind : ℤ) + ((ku : ℤ) - ((ty + k * DIM_Y : ℕ) : ℤ)))
        (((ty + k * DIM_Y : ℕ) : ℤ)) (by omega) (by omega) (Or.inr h3')
      rw [hA]
    · rfl
    · rfl
    · rfl
  · unfold rocblas_gbmvt_kernel_helper
    refine Finset.sum_congr rfl fun k _ => ?_
    simp only [gbmvt_body]
    split_ifs <;>
      first
        | rfl
        | rw [H (((ty + k * DIM_Y : ℕ) : ℤ)) ((ind : ℤ))
            (by omega) (by omega) (by omega)]

/-! ### The asum entry point, its size-query protocol and numerics checks -/

/-- Execution-context state relevant to `rocblas_asum_impl`: size-query mode,
the status that `set_optimal_device_memory_size` would return for this call,
logging layer-mode bits, numerics-check toggle, whether the workspace
allocation succeeds, and the pointer mode. -/
structure rocblas_handle where
  is_device_memory_size_query : Bool
  optimal_size_status : rocblas_status
  layer_mode_log_trace : Bool
  layer_mode_log_bench : Bool
  layer_mode_log_profile : Bool
  check_numerics : Bool
  alloc_succeeds : Bool
  pointer_mode : rocblas_pointer_mode
deriving DecidableEq

/-- Trace of the externally observable effects of one `rocblas_asum_impl`
call: whether any log line was emitted, whether the argument check ran,
the workspace byte count recorded by a size query (if any), whether the
workspace was allocated, whether the numerics check ran, and whether the
compute kernel was launched. -/
structure AsumEffects where
  logged : Bool := false
  arg_checked : Bool := false
  size_recorded : Option ℕ := Option.none
  allocated : Bool := false
  numerics_checked : Bool := false
  kernel_launched : Bool := false
deriving DecidableEq

/-- Modelled from the spec: `rocblas_asum_nrm2_arg_check` is declared but not
defined in the given sources.  Per the spec's status taxonomy, a required
pointer that is null with nonzero dimensions is an invalid-pointer error,
degenerate lengths are a quick-return success, and otherwise checking
continues. -/
def rocblas_asum_nrm2_arg_check (n incx batch_count : ℤ)
    (x_null result_null : Bool) : rocblas_status :=
  if result_null then .invalid_pointer
  else if n ≤ 0 ∨ incx ≤ 0 ∨ batch_count ≤ 0 then .success
  else if x_null then .invalid_pointer
  else .status_continue

/-- Modelled from the spec: `rocblas_internal_check_numerics_vector_template`
is not part of the given sources.  Per the spec it scans the `n` elements of
the vector descriptor for NaN/Inf (abstracted by the predicate `bad`) and
signals a has-NaN/Inf error distinct from ordinary statuses when one is
found. -/
def rocblas_internal_check_numerics_vector_template (bad : T → Bool) (n : ℤ)
    (x : ℤ → T) (offset inc : ℤ) : rocblas_status :=
  if (List.range n.toNat).any (fun i => bad (x (offset + (i : ℤ) * inc))) then
    .check_numerics_fail
  else .success

/-- `rocblas_gbmv_check_numerics` (lines 371-429 of
`rocblas_gbmv_kernels.cpp`): the input check scans the `x` vector of logical
length `n` for no-transpose and `m` otherwise; the output check scans the `y`
vector of logical length `m` for no-transpose and `n` otherwise. -/
def rocblas_gbmv_check_numerics (bad : T → Bool) (trans_a : rocblas_operation)
    (m n : ℤ) (x : ℤ → T) (offset_x inc_x : ℤ) (y : ℤ → T)
    (offset_y inc_y : ℤ) (is_input : Bool) : rocblas_status :=
  if is_input then
    rocblas_internal_check_numerics_vector_template bad
      (if trans_a = rocblas_operation_none then n else m) x offset_x inc_x
  else
    rocblas_internal_check_numerics_vector_template bad
      (if trans_a = rocblas_operation_none then m else n) y offset_y inc_y

/-- `rocblas_asum_impl` (the asum entry point): null-handle check, size-query
mode, logging, argument check, workspace allocation, optional numerics check
of the input vector, then the reduction launch.  `wsize` abstracts the
external `rocblas_reduction_kernel_workspace_size` collaborator (a function
of `n` and the batch count, which is 1 here); the launcher itself is modelled
as returning success. -/
def rocblas_asum_impl (wsize : ℤ → ℤ → ℕ) (bad : T → Bool)
    (handle : Option rocblas_handle) (n : ℤ) (x : Option (ℤ → T)) (incx : ℤ)
    (result_null : Bool) : rocblas_status × AsumEffects :=
  match handle with
  | Option.none => (.invalid_handle, {})
  | Option.some h =>
    if h.is_device_memory_size_query then
      if n ≤ 0 ∨ incx ≤ 0 then (.size_unchanged, {})
      else (h.optimal_size_status, { size_recorded := Option.some (wsize n 1) })
    else
      let logged := h.layer_mode_log_trace || h.layer_mode_log_bench
        || h.layer_mode_log_profile
      let arg_status := rocblas_asum_nrm2_arg_check n incx 1 x.isNone
        result_null
      if arg_status ≠ rocblas_status.status_continue then
        (arg_status, { logged := logged, arg_checked := true })
      else if ¬h.alloc_succeeds then
        (.memory_error, { logged := logged, arg_checked := true })
      else if h.check_numerics then
        let cn := rocblas_internal_check_numerics_vector_template bad n
          (x.getD (fun _ => 0)) 0 incx
        if cn ≠ rocblas_status.success then
          (cn, { logged := logged, arg_checked := true, allocated := true,
                 numerics_checked := true })
        else
          (.success, { logged := logged, arg_checked := true,
                       allocated := true, numerics_checked := true,
                       kernel_launched := true })
      else
        (.success, { logged := logged, arg_checked := true, allocated := true,
                     kernel_launched := true })

/-- C7: in device-memory size-query mode the asum entry point returns before
touching any data: size-unchanged when `n ≤ 0` or `incx ≤ 0`, and otherwise
it records exactly the workspace byte count computed from `n` and the batch
count (1) and returns that recording's status, with no logging, argument
check, allocation, numerics check or kernel launch. -/
theorem asum_size_query_returns_without_touching_data (wsize : ℤ → ℤ → ℕ)
    (bad : T → Bool) (h : rocblas_handle) (n : ℤ) (x : Option (ℤ → T))
    (incx : ℤ) (result_null : Bool)
    (hq : h.is_device_memory_size_query = true) :
    (n ≤ 0 ∨ incx ≤ 0 →
      rocblas_asum_impl wsize bad (Option.some h) n x incx result_null
        = (rocblas_status.size_unchanged, {}))
    ∧ (0 < n → 0 < incx →
      rocblas_asum_impl wsize bad (Option.some h) n x incx result_null
        = (h.optimal_size_status,
           { size_recorded := Option.some (wsize n 1) })) := by
  constructor
  · intro hdeg
    simp only [rocblas_asum_impl]
    rw [if_pos hq, if_pos hdeg]
  · intro hn hincx
    simp only [rocblas_asum_impl]
    rw [if_pos hq, if_neg (by omega)]

/-- C8: with the numerics-check toggle enabled, the input operands are
scanned before compute and a found NaN/Inf aborts the call with the distinct
has-NaN/Inf status and no kernel launch; for gbmv the input check covers the
`x` vector of logical length `n` for no-transpose and `m` otherwise, and the
output check covers the `y` vector of logical length `m` for no-transpose
and `n` otherwise. -/
theorem numerics_check_aborts_before_compute (bad : T → Bool)
    (trans_a : rocblas_operation) (m n : ℤ) (x : ℤ → T) (offset_x inc_x : ℤ)
    (y : ℤ → T) (offset_y inc_y : ℤ) (wsize : ℤ → ℤ → ℕ)
    (h : rocblas_handle) (xf : ℤ → T) (na incx : ℤ)
    (hq : h.is_device_memory_size_query = false)
    (hcn : h.check_numerics = true) (halloc : h.alloc_succeeds = true)
    (hn : 0 < na) (hincx : 0 < incx)
    (hbad : rocblas_internal_check_numerics_vector_template bad na xf 0 incx
      = rocblas_status.check_numerics_fail) :
    (rocblas_gbmv_check_numerics bad trans_a m n x offset_x inc_x y offset_y
        inc_y true
      = rocblas_internal_check_numerics_vector_template bad
        (if trans_a = rocblas_operation_none then n else m) x offset_x inc_x)
    ∧ (rocblas_gbmv_check_numerics bad trans_a m n x offset_x inc_x y offset_y
        inc_y false
      = rocblas_internal_check_numerics_vector_template bad
        (if trans_a = rocblas_operation_none then m else n) y offset_y inc_y)
    ∧ (rocblas_asum_impl wsize bad (Option.some h) na (Option.some xf) incx
        false).1 = rocblas_status.check_numerics_fail
    ∧ (rocblas_asum_impl wsize bad (Option.some h) na (Option.some xf) incx
        false).2.kernel_launched = false := by
  have harg : rocblas_asum_nrm2_arg_check na incx 1 false false
      = rocblas_status.status_continue := by
    unfold rocblas_asum_nrm2_arg_check
    rw [if_neg (by simp), if_neg (by omega), if_neg (by simp)]
  refine ⟨rfl, rfl, ?_, ?_⟩ <;>
  · simp [rocblas_asum_impl, hq, hcn, halloc, harg, hbad]

/-! ### Concrete instantiations (witnesses) -/

/-- Witness for C1 at a concrete conjugate-transpose instance over `ℤ`. -/
theorem gbmv_kernel_calc_matches_reference_witness :
    (0 : ℕ) < 2 ∧ (fun z : ℤ => -z) 0 = 0
    ∧ ((1 : ℕ) : ℤ) + ((1 : ℕ) : ℤ) < (3 : ℤ)
    ∧ (1 : ℕ) < (if rocblas_operation_conjugate_transpose
        = rocblas_operation_none then 3 else 3)
    ∧ rocblas_gbmvx_kernel_calc 2 (fun z : ℤ => -z)
        rocblas_operation_conjugate_transpose 3 3 1 1 2 (fun idx => idx + 1) 3
        (fun i => i + 2) 1 5 (fun i => i) 1 1
      = gbmv_reference (fun z : ℤ => -z) rocblas_operation_conjugate_transpose
        3 3 1 1 2 (fun idx => idx + 1) 3 (fun i => i + 2) 1 5 (fun i => i) 1 1 :=
  ⟨by decide, by decide, by decide, by decide,
    gbmv_kernel_calc_matches_reference 2 (fun z : ℤ => -z)
      rocblas_operation_conjugate_transpose 3 3 1 1 2 (fun idx => idx + 1) 3
      (fun i => i + 2) 1 5 (fun i => i) 1 1 (by decide) (by decide)
      (by decide) (by decide)⟩

/-- Witness for C2 at a concrete instance over `ℤ` with `beta = 0`. -/
theorem gbmv_beta_zero_writes_without_reading_y_witness :
    (0 : ℤ) = 0
    ∧ (0 : ℕ) < (if rocblas_operation_none = rocblas_operation_none then 2 else 2)
    ∧ (rocblas_gbmvx_kernel_calc 2 id rocblas_operation_none 2 2 0 0 (3 : ℤ)
        (fun idx => idx) 1 (fun i => i + 1) 1 0 (fun i => i + 7) 1 0
      = (if (3 : ℤ) = 0 then 0
          else 3 * gbmv_tile_sum 2 id rocblas_operation_none 0 2 2 0 0
            (fun idx => idx) 1 (fun i => i + 1) 1)
      ∧ ∀ y' : ℤ → ℤ,
          rocblas_gbmvx_kernel_calc 2 id rocblas_operation_none 2 2 0 0 3
            (fun idx => idx) 1 (fun i => i + 1) 1 0 y' 1 0
          = rocblas_gbmvx_kernel_calc 2 id rocblas_operation_none 2 2 0 0 3
            (fun idx => idx) 1 (fun i => i + 1) 1 0 (fun i => i + 7) 1 0) :=
  ⟨rfl, by decide,
    gbmv_beta_zero_writes_without_reading_y 2 id rocblas_operation_none 2 2 0 0
      3 (fun idx => idx) 1 (fun i => i + 1) 1 0 (fun i => i + 7) 1 0 rfl
      (by decide)⟩

/-- Witness for C3 at a concrete instance over `ℤ` with `alpha = 0`,
`beta = 1`. -/
theorem gbmv_alpha_zero_beta_one_identity_witness :
    (0 : ℤ) = 0 ∧ (1 : ℤ) = 1
    ∧ ((∀ ind : ℕ,
        rocblas_gbmvx_kernel 4 2 8 id rocblas_operation_none 2 2 0 0 (0 : ℤ)
          (fun idx => idx) 1 (fun i => i + 1) 1 1 (fun i => i + 3) 1 ind
          = (fun i : ℤ => i + 3) ((ind : ℤ) * 1))
      ∧ (rocblas_internal_gbmv_launcher rocblas_pointer_mode.host
          rocblas_operation_none 2 2 0 0 (0 : ℤ) 0 1 1 0 1 1).kernel_launched
          = false
      ∧ (rocblas_internal_gbmv_launcher rocblas_pointer_mode.host
          rocblas_operation_none 2 2 0 0 (0 : ℤ) 0 1 1 0 1 1).status
          = rocblas_status.success) :=
  ⟨rfl, rfl,
    gbmv_alpha_zero_beta_one_identity 4 2 8 id rocblas_operation_none 2 2 0 0
      0 (fun idx => idx) 1 (fun i => i + 1) 1 1 (fun i => i + 3) 1
      2 2 0 0 0 1 0 1 1 rfl rfl⟩

/-- Witness for C4 at a concrete instance (`incx = -2`, `incy = 3`). -/
theorem gbmv_launcher_negative_increment_shift_witness :
    (3 : ℤ) ≠ 0 ∧ (4 : ℤ) ≠ 0 ∧ (2 : ℤ) ≠ 0
    ∧ (((-2 : ℤ) < 0 →
        (rocblas_internal_gbmv_launcher rocblas_pointer_mode.host
            rocblas_operation_none 3 4 1 1 (1 : ℤ) 10 (-2) 1 20 3 2).shiftx
          = 10 + |(-2 : ℤ)|
            * ((if rocblas_operation_none = rocblas_operation_none
                then (4 : ℤ) else 3) - 1))
      ∧ ((0 : ℤ) ≤ -2 →
        (rocblas_internal_gbmv_launcher rocblas_pointer_mode.host
            rocblas_operation_none 3 4 1 1 (1 : ℤ) 10 (-2) 1 20 3 2).shiftx
          = 10))
    ∧ (((3 : ℤ) < 0 →
        (rocblas_internal_gbmv_launcher rocblas_pointer_mode.host
            rocblas_operation_none 3 4 1 1 (1 : ℤ) 10 (-2) 1 20 3 2).shifty
          = 20 + |(3 : ℤ)|
            * ((if rocblas_operation_none = rocblas_operation_none
                then (3 : ℤ) else 4) - 1))
      ∧ ((0 : ℤ) ≤ 3 →
        (rocblas_internal_gbmv_launcher rocblas_pointer_mode.host
            rocblas_operation_none 3 4 1 1 (1 : ℤ) 10 (-2) 1 20 3 2).shifty
          = 20)) :=
  ⟨by decide, by decide, by decide,
    gbmv_launcher_negative_increment_shift rocblas_pointer_mode.host
      rocblas_operation_none 3 4 1 1 1 10 (-2) 1 20 3 2 (by decide) (by decide)
      (by decide)⟩

/-- Witness for the amended C5 at a concrete instance with `m = 0`. -/
theorem gbmv_launcher_quick_return_witness :
    ((0 : ℤ) = 0 ∨ (5 : ℤ) = 0 ∨ (3 : ℤ) = 0)
    ∧ (rocblas_internal_gbmv_launcher rocblas_pointer_mode.host
        rocblas_operation_none 0 5 1 1 (1 : ℤ) 0 1 1 0 1 3).status
        = rocblas_status.success
    ∧ (rocblas_internal_gbmv_launcher rocblas_pointer_mode.host
        rocblas_operation_none 0 5 1 1 (1 : ℤ) 0 1 1 0 1 3).kernel_launched
        = false :=
  ⟨Or.inl rfl,
    (gbmv_launcher_quick_return rocblas_pointer_mode.host
      rocblas_operation_none 0 5 1 1 1 0 1 1 0 1 3 (Or.inl rfl)).1,
    (gbmv_launcher_quick_return rocblas_pointer_mode.host
      rocblas_operation_none 0 5 1 1 1 0 1 1 0 1 3 (Or.inl rfl)).2⟩

/-- Witness for C6: two storage buffers that agree on the (single-cell) band
region but differ outside it give identical helper results. -/
theorem gbmv_helpers_read_only_in_band_witness :
    (∀ row col : ℤ, 0 ≤ row → row ≤ ((0 : ℕ) : ℤ) + ((0 : ℕ) : ℤ) →
      ((row ≤ ((0 : ℕ) : ℤ) ∧ ((0 : ℕ) : ℤ) - row ≤ col
          ∧ col < ((0 : ℕ) : ℤ) - row + ((1 : ℕ) : ℤ))
        ∨ (((0 : ℕ) : ℤ) < row ∧ col < ((1 : ℕ) : ℤ) - (row - ((0 : ℕ) : ℤ)))) →
      (fun z : ℤ => if z = 0 then (5 : ℤ) else 1) (row + col * 1)
        = (fun z : ℤ => if z = 0 then (5 : ℤ) else 2) (row + col * 1))
    ∧ rocblas_gbmvn_kernel_helper 2 0 0 1 1 0 0
        (fun z : ℤ => if z = 0 then (5 : ℤ) else 1) 1 (fun i => i + 1) 1
      = rocblas_gbmvn_kernel_helper 2 0 0 1 1 0 0
        (fun z : ℤ => if z = 0 then (5 : ℤ) else 2) 1 (fun i => i + 1) 1
    ∧ rocblas_gbmvt_kernel_helper 2 false id 0 0 1 1 0 0
        (fun z : ℤ => if z = 0 then (5 : ℤ) else 1) 1 (fun i => i + 1) 1
      = rocblas_gbmvt_kernel_helper 2 false id 0 0 1 1 0 0
        (fun z : ℤ => if z = 0 then (5 : ℤ) else 2) 1 (fun i => i + 1) 1 := by
  have H : ∀ row col : ℤ, 0 ≤ row → row ≤ ((0 : ℕ) : ℤ) + ((0 : ℕ) : ℤ) →
      ((row ≤ ((0 : ℕ) : ℤ) ∧ ((0 : ℕ) : ℤ) - row ≤ col
          ∧ col < ((0 : ℕ) : ℤ) - row + ((1 : ℕ) : ℤ))
        ∨ (((0 : ℕ) : ℤ) < row ∧ col < ((1 : ℕ) : ℤ) - (row - ((0 : ℕ) : ℤ)))) →
      (fun z : ℤ => if z = 0 then (5 : ℤ) else 1) (row + col * 1)
        = (fun z : ℤ => if z = 0 then (5 : ℤ) else 2) (row + col * 1) := by
    intro row col h0 h1 h2
    have hrc : row + col * (1 : ℤ) = 0 := by
      rcases h2 with h | h <;> omega
    rw [hrc]
    decide
  exact ⟨H,
    (gbmv_helpers_read_only_in_band 2 0 0 1 1 0 0
      (fun z : ℤ => if z = 0 then (5 : ℤ) else 1)
      (fun z : ℤ => if z = 0 then (5 : ℤ) else 2) 1 (fun i => i + 1) 1 false
      id H).1,
    (gbmv_helpers_read_only_in_band 2 0 0 1 1 0 0
      (fun z : ℤ => if z = 0 then (5 : ℤ) else 1)
      (fun z : ℤ => if z = 0 then (5 : ℤ) else 2) 1 (fun i => i + 1) 1 false
      id H).2⟩

/-- Witness for C7 at a concrete size-query-mode handle. -/
theorem asum_size_query_returns_without_touching_data_witness :
    ({ is_device_memory_size_query := true,
       optimal_size_status := rocblas_status.size_increased,
       layer_mode_log_trace := false, layer_mode_log_bench := false,
       layer_mode_log_profile := false, check_numerics := false,
       alloc_succeeds := true, pointer_mode := rocblas_pointer_mode.host
       : rocblas_handle }).is_device_memory_size_query = true
    ∧ (((4 : ℤ) ≤ 0 ∨ (1 : ℤ) ≤ 0 →
        rocblas_asum_impl (fun nn _ => nn.toNat * 8)
          (fun z : ℤ => decide (z = 99))
          (Option.some
            { is_device_memory_size_query := true,
              optimal_size_status := rocblas_status.size_increased,
              layer_mode_log_trace := false, layer_mode_log_bench := false,
              layer_mode_log_profile := false, check_numerics := false,
              alloc_succeeds := true,
              pointer_mode := rocblas_pointer_mode.host })
          4 (Option.some (fun i => i)) 1 false
          = (rocblas_status.size_unchanged, {}))
      ∧ ((0 : ℤ) < 4 → (0 : ℤ) < 1 →
        rocblas_asum_impl (fun nn _ => nn.toNat * 8)
          (fun z : ℤ => decide (z = 99))
          (Option.some
            { is_device_memory_size_query := true,
              optimal_size_status := rocblas_status.size_increased,
              layer_mode_log_trace := false, layer_mode_log_bench := false,
              layer_mode_log_profile := false, check_numerics := false,
              alloc_succeeds := true,
              pointer_mode := rocblas_pointer_mode.host })
          4 (Option.some (fun i => i)) 1 false
          = (rocblas_status.size_increased,
             { size_recorded := Option.some ((4 : ℤ).toNat * 8) }))) :=
  ⟨rfl,
    asum_size_query_returns_without_touching_data (fun nn _ => nn.toNat * 8)
      (fun z : ℤ => decide (z = 99))
      { is_device_memory_size_query := true,
        optimal_size_status := rocblas_status.size_increased,
        layer_mode_log_trace := false, layer_mode_log_bench := false,
        layer_mode_log_profile := false, check_numerics := false,
        alloc_succeeds := true, pointer_mode := rocblas_pointer_mode.host }
      4 (Option.some (fun i => i)) 1 false rfl⟩

/-- Witness for C8 at a concrete instance: the input vector holds a bad value
at logical index 1, so the call aborts with the has-NaN/Inf status and no
kernel launch. -/
theorem numerics_check_aborts_before_compute_witness :
    rocblas_internal_check_numerics_vector_template
        (fun z : ℤ => decide (z = 1)) 2 (fun i => i) 0 1
      = rocblas_status.check_numerics_fail
    ∧ ((rocblas_gbmv_check_numerics (fun z : ℤ => decide (z = 1))
        rocblas_operation_transpose 3 4 (fun i => i) 0 1 (fun i => i + 1) 0 1
        true
      = rocblas_internal_check_numerics_vector_template
        (fun z : ℤ => decide (z = 1))
        (if rocblas_operation_transpose = rocblas_operation_none then 4 else 3)
        (fun i => i) 0 1)
    ∧ (rocblas_gbmv_check_numerics (fun z : ℤ => decide (z = 1))
        rocblas_operation_transpose 3 4 (fun i => i) 0 1 (fun i => i + 1) 0 1
        false
      = rocblas_internal_check_numerics_vector_template
        (fun z : ℤ => decide (z = 1))
        (if rocblas_operation_transpose = rocblas_operation_none then 3 else 4)
        (fun i => i + 1) 0 1)
    ∧ (rocblas_asum_impl (fun nn _ => nn.toNat * 8)
        (fun z : ℤ => decide (z = 1))
        (Option.some
          { is_device_memory_size_query := false,
            optimal_size_status := rocblas_status.size_increased,
            layer_mode_log_trace := true, layer_mode_log_bench := false,
            layer_mode_log_profile := false, check_numerics := true,
            alloc_succeeds := true, pointer_mode := rocblas_pointer_mode.host })
        2 (Option.some (fun i => i)) 1 false).1
      = rocblas_status.check_numerics_fail
    ∧ (rocblas_asum_impl (fun nn _ => nn.toNat * 8)
        (fun z : ℤ => decide (z = 1))
        (Option.some
          { is_device_memory_size_query := false,
            optimal_size_status := rocblas_status.size_increased,
            layer_mode_log_trace := true, layer_mode_log_bench := false,
            layer_mode_log_profile := false, check_numerics := true,
            alloc_succeeds := true, pointer_mode := rocblas_pointer_mode.host })
        2 (Option.some (fun i => i)) 1 false).2.kernel_launched = false) :=
  ⟨by decide,
    numerics_check_aborts_before_compute (fun z : ℤ => decide (z = 1))
      rocblas_operation_transpose 3 4 (fun i => i) 0 1 (fun i => i + 1) 0 1
      (fun nn _ => nn.toNat * 8)
      { is_device_memory_size_query := false,
        optimal_size_status := rocblas_status.size_increased,
        layer_mode_log_trace := true, layer_mode_log_bench := false,
        layer_mode_log_profile := false, check_numerics := true,
        alloc_succeeds := true, pointer_mode := rocblas_pointer_mode.host }
      (fun i => i) 2 1 rfl rfl rfl (by decide) (by decide) (by decide)⟩

/-- Witness for C9 at a concrete thread-count mismatch. -/
theorem gbmv_kernel_thread_mismatch_noop_witness :
    (5 : ℕ) ≠ 64 * 16
    ∧ ∀ ind : ℕ,
      rocblas_gbmvx_kernel 64 16 5 id rocblas_operation_none 2 2 0 0 (1 : ℤ)
          (fun idx => idx) 1 (fun i => i + 1) 1 2 (fun i => i + 3) 1 ind
        = (fun i : ℤ => i + 3) ((ind : ℤ) * 1) :=
  ⟨by decide,
    gbmv_kernel_thread_mismatch_noop 64 16 5 id rocblas_operation_none 2 2 0 0
      1 (fun idx => idx) 1 (fun i => i + 1) 1 2 (fun i => i + 3) 1
      (by decide)⟩

/-- Witness for C10 at a concrete instance with `alpha = 0`. -/
theorem gbmv_kernel_alpha_zero_no_deref_witness :
    (0 : ℤ) = 0 ∧ (4 : ℕ) = 2 * 2
    ∧ ((∀ (A' x' : ℤ → ℤ) (ind : ℕ),
        rocblas_gbmvx_kernel 2 2 4 id rocblas_operation_none 2 2 0 0 (0 : ℤ)
            A' 1 x' 1 2 (fun i => i + 3) 1 ind
          = rocblas_gbmvx_kernel 2 2 4 id rocblas_operation_none 2 2 0 0 0
            (fun idx => idx) 1 (fun i => i + 1) 1 2 (fun i => i + 3) 1 ind)
      ∧ (∀ ind : ℕ,
        rocblas_gbmvx_kernel 2 2 4 id rocblas_operation_none 2 2 0 0 (0 : ℤ)
            (fun idx => idx) 1 (fun i => i + 1) 1 2 (fun i => i + 3) 1 ind
          = if ind < (if rocblas_operation_none = rocblas_operation_none
                then 2 else 2)
            then 2 * (fun i : ℤ => i + 3) ((ind : ℤ) * 1)
            else (fun i : ℤ => i + 3) ((ind : ℤ) * 1))) :=
  ⟨rfl, by decide,
    gbmv_kernel_alpha_zero_no_deref 2 2 4 id rocblas_operation_none 2 2 0 0 0
      (fun idx => idx) 1 (fun i => i + 1) 1 2 (fun i => i + 3) 1 rfl rfl⟩
